import Mathlib

set_option maxRecDepth 100000

/-!
Verification of the loadtest repository (src/main.go): a concurrent HTTP
load generator.  The worker pool, statistics aggregation and transport
configuration are embedded shallowly: the stats-update portion of
`sendRequest` becomes a pure state transformer over a `Stats` record,
the `sync.Map` status-code histogram becomes an association list with
`Load`/`Store` operations, channel-based job dispatch becomes a queue
handed out head-first to scheduler-chosen workers, and the racy parts of
`sendRequest` are additionally given a micro-operation interleaving
semantics so that concurrent executions can be examined.

Durations and counters are Go `int64` values carried as `Int`; every
quantity reachable here is bounded far below `2^63` (counts are bounded
by the request count `N`, durations are nanosecond readings), so no
wrap-around is modelled.
-/

namespace Loadtest

/-- Go `time.Hour` in nanoseconds; `main` stores it into `MinDuration`
as a sentinel (src/main.go line 57). -/
def hourNs : Int := 3600000000000

/-- Association-list model of the `sync.Map` used for `Stats.StatusCodes`:
keys are HTTP status codes, values the `int64` occurrence counts. -/
abbrev StatusMap : Type := List (Int × Int)

/-- `sync.Map.Load`: the current value for a key, if present. -/
def mapLoad (m : StatusMap) (k : Int) : Option Int :=
  match m with
  | [] => none
  | (k2, v) :: rest => if k2 = k then some v else mapLoad rest k

/-- `sync.Map.Store`: replace the value for a key, or append the binding
if the key is absent. -/
def mapStore (m : StatusMap) (k v : Int) : StatusMap :=
  match m with
  | [] => [(k, v)]
  | (k2, v2) :: rest =>
      if k2 = k then (k2, v) :: rest else (k2, v2) :: mapStore rest k v

/-- Sum of all bucket counts of the histogram. -/
def histSum (m : StatusMap) : Int :=
  match m with
  | [] => 0
  | (_, v) :: rest => v + histSum rest

/-- The `Stats` struct of src/main.go, lines 19-27: all counters are
`atomic.Int64`; `StatusCodes` is the `sync.Map` histogram. -/
structure Stats where
  totalRequests : Int
  successfulRequests : Int
  failedRequests : Int
  totalDuration : Int
  minDuration : Int
  maxDuration : Int
  statusCodes : StatusMap
deriving Repr, DecidableEq

/-- `main` lines 56-57: `stats := &Stats{}` zero-initialises every field,
then `stats.MinDuration.Store(int64(time.Hour))`. -/
def initialStats : Stats :=
  { totalRequests := 0
    successfulRequests := 0
    failedRequests := 0
    totalDuration := 0
    minDuration := hourNs
    maxDuration := 0
    statusCodes := [] }

/-- The outcome of one request attempt as observed inside `sendRequest`:
`client.Do` either returns a response carrying a status code, or an
error.  The elapsed duration is measured in both cases. -/
inductive Outcome where
  | success (statusCode : Int) (durationNs : Int)
  | failure (durationNs : Int)
deriving Repr, DecidableEq

/-- The duration measured for an outcome. -/
def Outcome.duration : Outcome → Int
  | .success _ d => d
  | .failure d => d

/-- The stats-update effect of `sendRequest` (src/main.go lines 229-276)
for one outcome, executed serially:
`TotalRequests.Add(1)`; `TotalDuration.Add(duration)`; the min and max
compare-and-swap retry loops (which, with no concurrent writer, reduce
to a single conditional replace); then on error `FailedRequests.Add(1)`
and return, else `SuccessfulRequests.Add(1)` followed by the
`sync.Map` load-then-store bucket update. -/
def record (s : Stats) (o : Outcome) : Stats :=
  let d := o.duration
  let s := { s with
    totalRequests := s.totalRequests + 1
    totalDuration := s.totalDuration + d }
  let s := { s with
    minDuration := if d < s.minDuration then d else s.minDuration }
  let s := { s with
    maxDuration := if d > s.maxDuration then d else s.maxDuration }
  match o with
  | .failure _ => { s with failedRequests := s.failedRequests + 1 }
  | .success code _ =>
      let s := { s with successfulRequests := s.successfulRequests + 1 }
      match mapLoad s.statusCodes code with
      | some count =>
          { s with statusCodes := mapStore s.statusCodes code (count + 1) }
      | none =>
          { s with statusCodes := mapStore s.statusCodes code 1 }

/-- Aggregation of a whole run: the outcomes, in the order their
`sendRequest` stats updates take effect, folded into the shared stats.
Quantifying theorems over every outcome list covers every completion
order of the workers. -/
def runSerial (outcomes : List Outcome) (s : Stats) : Stats :=
  outcomes.foldl record s

/-- `printResults` line 290: average latency is the `int64` division of
cumulative duration by the total count. -/
def avgDuration (s : Stats) : Int :=
  s.totalDuration / s.totalRequests

/-- The `Config` struct of src/main.go, lines 30-39. -/
structure Config where
  url : String
  numRequests : Int
  concurrency : Int
  timeout : Int
  method : String
  body : String
  headers : List String
  keepAlive : Bool

/-- Go `time.Second` in nanoseconds. -/
def secondNs : Int := 1000000000

/-- The `http.Transport` fields set by `createHTTPClient`
(src/main.go lines 159-167). -/
structure Transport where
  insecureSkipVerify : Bool
  maxIdleConns : Int
  maxIdleConnsPerHost : Int
  maxConnsPerHost : Int
  idleConnTimeoutNs : Int
  responseHeaderTimeoutNs : Int
  disableKeepAlives : Bool

/-- The `http.Client` built by `createHTTPClient` (lines 156-169). -/
structure HTTPClient where
  timeoutNs : Int
  transport : Transport

/-- `createHTTPClient` (src/main.go lines 156-169). -/
def createHTTPClient (config : Config) : HTTPClient :=
  { timeoutNs := config.timeout * secondNs
    transport :=
      { insecureSkipVerify := true
        maxIdleConns := config.concurrency * 2
        maxIdleConnsPerHost := config.concurrency * 2
        maxConnsPerHost := config.concurrency * 2
        idleConnTimeoutNs := 90 * secondNs
        responseHeaderTimeoutNs := config.timeout * secondNs
        disableKeepAlives := !config.keepAlive } }

/-!
Request templates and cloning.  A Go `*bytes.Buffer` installed as a
request body is a mutable reader living on the heap; the heap of such
readers is modelled as a list of their remaining contents, indexed by
allocation order, and a `Request` holds a reference (an index) to its
reader rather than the bytes themselves.
-/

/-- Heap of body readers: entry `i` is the content reader `i` has not
yet yielded. -/
abbrev BodyStore : Type := List String

/-- An `http.Request` as used by the core: method, URL, a header map
(modelled by value, since `Request.Clone` deep-copies it), and an
optional reference to a body reader on the heap. -/
structure Request where
  method : String
  url : String
  header : List (String × String)
  bodyRef : Option Nat
deriving Repr, DecidableEq

/-- `http.Header.Set`: replace the value for a key, or add the binding.
(Go canonicalises header-key case; none of the keys used by the code
differ under canonicalisation, so keys are compared verbatim.) -/
def setHeader (h : List (String × String)) (k v : String) : List (String × String) :=
  match h with
  | [] => [(k, v)]
  | (k2, v2) :: rest =>
      if k2 = k then (k, v) :: rest else (k2, v2) :: setHeader rest k v

/-- `strings.SplitN(s, sep, 2)`: split at the first separator only. -/
def splitN2 (s sep : String) : List String :=
  match s.splitOn sep with
  | [] => []
  | [x] => [x]
  | x :: rest => [x, String.intercalate sep rest]

/-- The custom-header loop of `createBaseRequest` (lines 199-206). -/
def addCustomHeaders (h : List (String × String)) : List String → List (String × String)
  | [] => h
  | header :: rest =>
      let parts := splitN2 header ":"
      match parts with
      | [key, value] => addCustomHeaders (setHeader h key.trim value.trim) rest
      | _ => addCustomHeaders h rest

/-- `createBaseRequest` (src/main.go lines 171-209).  Whether
`http.NewRequestWithContext` accepts the configured method and URL is
external to the core (URL/method parsing is a collaborator concern),
so it is passed in as `parseOk`; on rejection the function returns the
error.  Otherwise: when the body is non-empty a single `bytes.Buffer`
reader is allocated on the heap and referenced by the request; default
headers are set; the content type is auto-detected from the body; and
custom headers are applied last. -/
def createBaseRequest (parseOk : Bool) (config : Config) (store : BodyStore) :
    Except String (Request × BodyStore) :=
  if !parseOk then .error "invalid method or URL" else
  let alloc : Option Nat × BodyStore :=
    if config.body ≠ "" then (some store.length, store ++ [config.body])
    else (none, store)
  let h := setHeader [] "User-Agent" "Go-Load-Tester/1.24"
  let h := setHeader h "Accept" "*/*"
  let h := setHeader h "Connection" "keep-alive"
  let h :=
    if config.body ≠ "" then
      if config.body.startsWith "\x7b" || config.body.startsWith "[" then
        setHeader h "Content-Type" "application/json"
      else if String.contains config.body (Char.ofNat 38)
          && String.contains config.body (Char.ofNat 61) then
        setHeader h "Content-Type" "application/x-www-form-urlencoded"
      else
        setHeader h "Content-Type" "text/plain"
    else h
  let h := addCustomHeaders h config.headers
  .ok ({ method := config.method, url := config.url, header := h,
         bodyRef := alloc.1 }, alloc.2)

/-- `baseReq.Clone(baseReq.Context())` as invoked at src/main.go line
223.  Modelled from the Go standard library semantics of
`http.Request.Clone`: the header map is deep-copied (a fresh map with
the same entries — here a fresh list value), while the `Body` field,
the single `*bytes.Buffer` reader allocated by `createBaseRequest`, is
copied as a reference: every clone shares the reader of the template. -/
def Request.clone (r : Request) : Request :=
  { method := r.method
    url := r.url
    header := r.header.map (fun kv => (kv.1, kv.2))
    bodyRef := r.bodyRef }

/-- Sending a request transmits whatever its body reader still holds
and drains the reader (a `bytes.Buffer` yields its contents once, then
reads EOF).  Returns the bytes put on the wire and the updated heap. -/
def transmitBody (store : BodyStore) (r : Request) : String × BodyStore :=
  match r.bodyRef with
  | none => ("", store)
  | some i => (store.getD i "", store.set i "")

/-!
Job dispatch.  `runLoadTest` preloads a buffered channel with the job
indices `0..N-1` in order and closes it; each of the `C` workers runs
`for requestNum := range jobs`, so every receive hands the current head
of the queue to exactly one worker, chosen by the scheduler, and a
loop of a worker ends when the closed channel is drained.  The
choices of the scheduler are an arbitrary function from receive step to worker.
-/

/-- The sequence of (worker, job) hand-offs of a run: at receive step
`t` the scheduler picks worker `sched t % c`, which receives the head
of the remaining queue; dispatch ends when the queue is exhausted. -/
def assignJobs (sched : Nat → Nat) (c : Nat) : List Nat → Nat → List (Nat × Nat)
  | [], _ => []
  | j :: rest, t => (sched t % c, j) :: assignJobs sched c rest (t + 1)

/-- The body of `worker` (src/main.go lines 211-219) for one worker:
for each job received, `sendRequest` records the outcome — whatever it
is — and one completion signal is sent on `results`; the loop moves to
the next job unconditionally and returns only when the job list is
exhausted.  Returns the stats after the updates of this worker and the
number of completion signals it emitted.  `oracle j` is the outcome
`client.Do` produces for job `j`. -/
def workerRun (oracle : Nat → Outcome) : List Nat → Stats → Stats × Nat
  | [], s => (s, 0)
  | j :: rest, s =>
      let s2 := record s (oracle j)
      let r := workerRun oracle rest s2
      (r.1, r.2 + 1)

/-- The observable result of `runLoadTest`: either `os.Exit` with a
code (no statistics reach `printResults`), or completion with the final
stats snapshot. -/
inductive RunResult where
  | fatal (exitCode : Int)
  | completed (stats : Stats)
deriving DecidableEq

/-- `runLoadTest` (src/main.go lines 110-154): builds the client and
the base request template; if `createBaseRequest` fails it prints the
error and calls `os.Exit(1)` — before any worker goroutine is started,
before any job is enqueued and before any request is sent.  Otherwise
the workers drain the queue and the final stats are the aggregation of
all the outcomes of the run; `order` is the order in which the
per-outcome stats updates land (any interleaving of the workers). -/
def runLoadTest (parseOk : Bool) (config : Config) (oracle : Nat → Outcome)
    (order : List Nat) (stats : Stats) : RunResult :=
  match createBaseRequest parseOk config [] with
  | .error _ => .fatal 1
  | .ok _ => .completed (runSerial (order.map oracle) stats)

/-!
Interleaving semantics for the success path of `sendRequest`
(src/main.go lines 269-276).  `SuccessfulRequests.Add(1)` is one atomic
operation, but the histogram update is two: `StatusCodes.Load(code)`
into the goroutine-local `count, ok`, then `StatusCodes.Store(...)`.
Each `sync.Map` operation is individually atomic, so an execution is an
interleaving of these micro-operations.
-/

/-- Shared state touched by the success path, plus each worker
goroutine-local variable `count, ok` (the value its last `Load`
returned: `none` models `ok == false`). -/
structure ConcState where
  successfulRequests : Int
  statusCodes : StatusMap
  regs : List (Option Int)
deriving Repr, DecidableEq

/-- One atomic micro-operation of the success path of `sendRequest`,
tagged with the worker `w` executing it. -/
inductive MicroOp where
  | addSuccess (w : Nat)
  | histLoad (w : Nat) (code : Int)
  | histStore (w : Nat) (code : Int)
deriving Repr, DecidableEq

/-- The worker a micro-operation belongs to. -/
def MicroOp.worker : MicroOp → Nat
  | .addSuccess w => w
  | .histLoad w _ => w
  | .histStore w _ => w

/-- Effect of one micro-operation: `addSuccess` is the atomic
increment; `histLoad` stores the current bucket value in the local of
the worker; `histStore` writes local `count + 1` when the load found the
key, else `1` — exactly lines 272-276. -/
def stepOp (s : ConcState) (op : MicroOp) : ConcState :=
  match op with
  | .addSuccess _ =>
      { s with successfulRequests := s.successfulRequests + 1 }
  | .histLoad w code =>
      { s with regs := s.regs.set w (mapLoad s.statusCodes code) }
  | .histStore w code =>
      match s.regs.getD w none with
      | some count =>
          { s with statusCodes := mapStore s.statusCodes code (count + 1) }
      | none =>
          { s with statusCodes := mapStore s.statusCodes code 1 }

/-- Execute a sequence of micro-operations. -/
def execOps (ops : List MicroOp) (s : ConcState) : ConcState :=
  ops.foldl stepOp s

/-- The success path of `sendRequest` as the program of worker `w` for one
outcome with status `code`. -/
def successOps (w : Nat) (code : Int) : List MicroOp :=
  [.addSuccess w, .histLoad w code, .histStore w code]

/-- The micro-operations of `ops` executed by worker `w`, in order: an
op list is an interleaving of given per-worker programs exactly when
the projection of each worker equals its program. -/
def projOps (w : Nat) (ops : List MicroOp) : List MicroOp :=
  ops.filter (fun op => op.worker == w)

/-- Count held by a histogram bucket, zero when the key is absent. -/
def bucketCount (m : StatusMap) (k : Int) : Int :=
  (mapLoad m k).getD 0

/-- The spec scenario with mixed status codes: 100 responses, status 200
for indices 0-94 and status 500 for indices 95-99. -/
def mixedOutcomes : List Outcome :=
  (List.range 100).map (fun i => Outcome.success (if i < 95 then 200 else 500) 0)

/-- The spec duration scenario: recorded durations of 10ms, 50ms, 5ms
and 100ms, in nanoseconds. -/
def durScenario : List Outcome :=
  [Outcome.success 200 10000000, Outcome.success 200 50000000,
   Outcome.success 200 5000000, Outcome.success 200 100000000]

/-- The spec all-failures scenario: 10 requests, every `client.Do` call
fails (for example with a timeout). -/
def allFailOutcomes : List Outcome :=
  (List.range 10).map (fun _ => Outcome.failure 0)

/-- Shared state before the racy executions examined below: two
workers, no success recorded yet, empty histogram, locals clear. -/
def twoWorkerInit : ConcState :=
  { successfulRequests := 0, statusCodes := [], regs := [none, none] }

/-- A legal interleaving of two workers each recording a success with
status 200: both execute `Load` before either executes `Store`. -/
def racyOps : List MicroOp :=
  [MicroOp.addSuccess 0, MicroOp.addSuccess 1,
   MicroOp.histLoad 0 200, MicroOp.histLoad 1 200,
   MicroOp.histStore 0 200, MicroOp.histStore 1 200]

/-- Shared state after one earlier success with status 404: one count in
the bucket, two workers about to record two more. -/
def contendedInit : ConcState :=
  { successfulRequests := 1, statusCodes := [(404, 1)], regs := [none, none] }

/-- A legal interleaving of two workers each recording a success with
status 404 starting from `contendedInit`. -/
def contendedOps : List MicroOp :=
  [MicroOp.addSuccess 0, MicroOp.histLoad 0 404,
   MicroOp.addSuccess 1, MicroOp.histLoad 1 404,
   MicroOp.histStore 0 404, MicroOp.histStore 1 404]

/-- A run configuration carrying a non-empty request body. -/
def bodyConfig : Config :=
  { url := "http://example.test/api"
    numRequests := 2
    concurrency := 2
    timeout := 30
    method := "POST"
    body := "x"
    headers := []
    keepAlive := true }

/-- The template `createBaseRequest` builds for `bodyConfig`, together
with its heap of body readers; the method and URL of `bodyConfig` are
accepted by `http.NewRequestWithContext`, so `parseOk` holds. -/
def bodyTemplate : Request × BodyStore :=
  match createBaseRequest true bodyConfig [] with
  | .ok rs => rs
  | .error _ => ({ method := "", url := "", header := [], bodyRef := none }, [])

/-!
Helper lemmas about `record`, `runSerial`, the histogram map and job
dispatch.
-/

lemma record_totalRequests (s : Stats) (o : Outcome) :
    (record s o).totalRequests = s.totalRequests + 1 := by
  cases o with
  | failure d => rfl
  | success code d =>
      simp only [record]
      cases mapLoad s.statusCodes code <;> rfl

lemma record_sf (s : Stats) (o : Outcome) :
    (record s o).successfulRequests + (record s o).failedRequests
      = s.successfulRequests + s.failedRequests + 1 := by
  cases o with
  | failure d => simp [record]; ring
  | success code d =>
      simp only [record]
      cases mapLoad s.statusCodes code <;> simp <;> ring

lemma record_minDuration_le_self (s : Stats) (o : Outcome) :
    (record s o).minDuration ≤ s.minDuration := by
  cases o with
  | failure d => by_cases h : d < s.minDuration <;> simp [record, h] <;> omega
  | success code d =>
      simp only [record]
      cases mapLoad s.statusCodes code <;>
        (by_cases h : d < s.minDuration <;> simp [h] <;> omega)

lemma record_minDuration_le_dur (s : Stats) (o : Outcome) :
    (record s o).minDuration ≤ o.duration := by
  cases o with
  | failure d =>
      by_cases h : d < s.minDuration <;> simp [record, Outcome.duration, h] <;> omega
  | success code d =>
      simp only [record, Outcome.duration]
      cases mapLoad s.statusCodes code <;>
        (by_cases h : d < s.minDuration <;> simp [h] <;> omega)

lemma record_maxDuration_ge_self (s : Stats) (o : Outcome) :
    s.maxDuration ≤ (record s o).maxDuration := by
  cases o with
  | failure d => by_cases h : d > s.maxDuration <;> simp [record, h] <;> omega
  | success code d =>
      simp only [record]
      cases mapLoad s.statusCodes code <;>
        (by_cases h : d > s.maxDuration <;> simp [h] <;> omega)

lemma record_maxDuration_ge_dur (s : Stats) (o : Outcome) :
    o.duration ≤ (record s o).maxDuration := by
  cases o with
  | failure d =>
      by_cases h : d > s.maxDuration <;> simp [record, Outcome.duration, h] <;> omega
  | success code d =>
      simp only [record, Outcome.duration]
      cases mapLoad s.statusCodes code <;>
        (by_cases h : d > s.maxDuration <;> simp [h] <;> omega)

lemma runSerial_cons (o : Outcome) (l : List Outcome) (s : Stats) :
    runSerial (o :: l) s = runSerial l (record s o) := rfl

lemma runSerial_totalRequests (l : List Outcome) (s : Stats) :
    (runSerial l s).totalRequests = s.totalRequests + l.length := by
  induction l generalizing s with
  | nil => simp [runSerial]
  | cons o rest ih =>
      rw [runSerial_cons, ih, record_totalRequests]
      simp
      ring

lemma runSerial_sf (l : List Outcome) (s : Stats) :
    (runSerial l s).successfulRequests + (runSerial l s).failedRequests
      = s.successfulRequests + s.failedRequests + l.length := by
  induction l generalizing s with
  | nil => simp [runSerial]
  | cons o rest ih =>
      rw [runSerial_cons, ih, record_sf]
      simp
      ring

lemma runSerial_min_mono (l : List Outcome) (s : Stats) :
    (runSerial l s).minDuration ≤ s.minDuration := by
  induction l generalizing s with
  | nil => simp [runSerial]
  | cons o rest ih =>
      rw [runSerial_cons]
      exact le_trans (ih (record s o)) (record_minDuration_le_self s o)

lemma runSerial_min_le_mem (l : List Outcome) (s : Stats) (o : Outcome) (h : o ∈ l) :
    (runSerial l s).minDuration ≤ o.duration := by
  induction l generalizing s with
  | nil => cases h
  | cons o2 rest ih =>
      rw [runSerial_cons]
      rcases List.mem_cons.mp h with heq | hmem
      · subst heq
        exact le_trans (runSerial_min_mono rest (record s o)) (record_minDuration_le_dur s o)
      · exact ih (record s o2) hmem

lemma runSerial_max_mono (l : List Outcome) (s : Stats) :
    s.maxDuration ≤ (runSerial l s).maxDuration := by
  induction l generalizing s with
  | nil => simp [runSerial]
  | cons o rest ih =>
      rw [runSerial_cons]
      exact le_trans (record_maxDuration_ge_self s o) (ih (record s o))

lemma runSerial_max_ge_mem (l : List Outcome) (s : Stats) (o : Outcome) (h : o ∈ l) :
    o.duration ≤ (runSerial l s).maxDuration := by
  induction l generalizing s with
  | nil => cases h
  | cons o2 rest ih =>
      rw [runSerial_cons]
      rcases List.mem_cons.mp h with heq | hmem
      · subst heq
        exact le_trans (record_maxDuration_ge_dur s o) (runSerial_max_mono rest (record s o))
      · exact ih (record s o2) hmem

lemma mapLoad_mapStore_self (m : StatusMap) (k v : Int) :
    mapLoad (mapStore m k v) k = some v := by
  induction m with
  | nil => simp [mapStore, mapLoad]
  | cons kv rest ih =>
      obtain ⟨k2, v2⟩ := kv
      by_cases h : k2 = k <;> simp [mapStore, mapLoad, h, ih]

lemma mapLoad_mapStore_ne (m : StatusMap) (k v k2 : Int) (h : k2 ≠ k) :
    mapLoad (mapStore m k v) k2 = mapLoad m k2 := by
  have hne : ¬ (k = k2) := fun hh => h hh.symm
  induction m with
  | nil => simp [mapStore, mapLoad, hne]
  | cons kv rest ih =>
      obtain ⟨k3, v3⟩ := kv
      by_cases h3 : k3 = k
      · subst h3
        simp [mapStore, mapLoad, hne]
      · simp [mapStore, mapLoad, h3, ih]

lemma record_success_bucket (s : Stats) (code d : Int) :
    bucketCount (record s (.success code d)).statusCodes code
      = bucketCount s.statusCodes code + 1 := by
  simp only [record]
  cases h : mapLoad s.statusCodes code with
  | none => simp [bucketCount, h, mapLoad_mapStore_self]
  | some count => simp [bucketCount, h, mapLoad_mapStore_self]

lemma record_success_other_bucket (s : Stats) (code d other : Int) (hne : other ≠ code) :
    bucketCount (record s (.success code d)).statusCodes other
      = bucketCount s.statusCodes other := by
  simp only [record]
  cases h : mapLoad s.statusCodes code with
  | none => simp [bucketCount, mapLoad_mapStore_ne _ _ _ _ hne]
  | some count => simp [bucketCount, mapLoad_mapStore_ne _ _ _ _ hne]

lemma record_success_counts (s : Stats) (code d : Int) :
    (record s (.success code d)).successfulRequests = s.successfulRequests + 1
      ∧ (record s (.success code d)).failedRequests = s.failedRequests := by
  simp only [record]
  cases mapLoad s.statusCodes code <;> exact ⟨rfl, rfl⟩

lemma record_failure_counts (s : Stats) (d : Int) :
    (record s (.failure d)).failedRequests = s.failedRequests + 1
      ∧ (record s (.failure d)).successfulRequests = s.successfulRequests
      ∧ (record s (.failure d)).statusCodes = s.statusCodes :=
  ⟨rfl, rfl, rfl⟩

lemma assignJobs_map_snd (sched : Nat → Nat) (c : Nat) (q : List Nat) :
    ∀ t, (assignJobs sched c q t).map Prod.snd = q := by
  induction q with
  | nil => intro t; rfl
  | cons j rest ih =>
      intro t
      simp [assignJobs, ih (t + 1)]

lemma assignJobs_worker_lt (sched : Nat → Nat) (c : Nat) (hc : 0 < c) (q : List Nat) :
    ∀ t, ∀ p ∈ assignJobs sched c q t, p.1 < c := by
  induction q with
  | nil => intro t p hp; cases hp
  | cons j rest ih =>
      intro t p hp
      rcases List.mem_cons.mp hp with heq | hmem
      · subst heq
        exact Nat.mod_lt _ hc
      · exact ih (t + 1) p hmem

/-!
The claims.
-/

/-- C1: for every run of N requests with no fatal setup error, the final
snapshot satisfies successful + failed = total = N — in whatever order
the per-request updates land, since the statement holds for every
outcome list — and for N = 0 all three counters are zero. -/
theorem run_counts_conserved (outcomes : List Outcome) :
    (runSerial outcomes initialStats).totalRequests = outcomes.length
    ∧ (runSerial outcomes initialStats).successfulRequests
        + (runSerial outcomes initialStats).failedRequests
        = (runSerial outcomes initialStats).totalRequests
    ∧ (runSerial [] initialStats).totalRequests = 0
    ∧ (runSerial [] initialStats).successfulRequests = 0
    ∧ (runSerial [] initialStats).failedRequests = 0 := by
  refine ⟨?_, ?_, rfl, rfl, rfl⟩
  · rw [runSerial_totalRequests]
    simp [initialStats]
  · rw [runSerial_sf, runSerial_totalRequests]
    simp [initialStats]

/-- C2: an execution allowed by the code refutes the claim that the sum
of the histogram buckets equals the successful count in every completed
run.  The listed micro-operation sequence is a legal interleaving of two
workers each recording one success with status 200 (each worker runs
exactly its `sendRequest` success path, as the projections show), yet it
ends with successful = 2 while the bucket sum is 1: the separate
`sync.Map` `Load` and `Store` lose an increment. -/
theorem histogram_sum_lost_update :
    projOps 0 racyOps = successOps 0 200
    ∧ projOps 1 racyOps = successOps 1 200
    ∧ (execOps racyOps twoWorkerInit).successfulRequests = 2
    ∧ histSum (execOps racyOps twoWorkerInit).statusCodes = 1
    ∧ (1 : Int) ≠ 2 := by decide

/-- C3: an execution allowed by the code refutes the claim that
concurrent aggregation always matches the serial-equivalent computation.
Starting from a histogram holding one count for status 404, a legal
interleaving of two further successful records (the projections show
each worker runs exactly its success path) leaves the bucket at 2, while
the serial execution of the same two records leaves it at 3; the atomic
successful counter agrees with the serial result, the bucket does not. -/
theorem histogram_bucket_lost_update :
    projOps 0 contendedOps = successOps 0 404
    ∧ projOps 1 contendedOps = successOps 1 404
    ∧ mapLoad (execOps contendedOps contendedInit).statusCodes 404 = some 2
    ∧ mapLoad (execOps (successOps 0 404 ++ successOps 1 404) contendedInit).statusCodes 404
        = some 3
    ∧ (execOps contendedOps contendedInit).successfulRequests
        = (execOps (successOps 0 404 ++ successOps 1 404) contendedInit).successfulRequests
    ∧ some (2 : Int) ≠ some 3 := by decide

/-- C4: any received response counts as successful and increments
exactly its own status bucket, whatever the status code; a transport
failure increments only the failed counter and leaves the histogram
untouched; and the mixed scenario (status 200 for indices 0-94, status
500 for 95-99) yields successful = 100, failed = 0 and histogram
counts 200 at 95 and 500 at 5. -/
theorem any_response_counts_successful (s : Stats) (code d other : Int)
    (hne : other ≠ code) :
    (record s (Outcome.success code d)).successfulRequests = s.successfulRequests + 1
    ∧ (record s (Outcome.success code d)).failedRequests = s.failedRequests
    ∧ bucketCount (record s (Outcome.success code d)).statusCodes code
        = bucketCount s.statusCodes code + 1
    ∧ bucketCount (record s (Outcome.success code d)).statusCodes other
        = bucketCount s.statusCodes other
    ∧ (record s (Outcome.failure d)).failedRequests = s.failedRequests + 1
    ∧ (record s (Outcome.failure d)).successfulRequests = s.successfulRequests
    ∧ (record s (Outcome.failure d)).statusCodes = s.statusCodes
    ∧ (runSerial mixedOutcomes initialStats).successfulRequests = 100
    ∧ (runSerial mixedOutcomes initialStats).failedRequests = 0
    ∧ mapLoad (runSerial mixedOutcomes initialStats).statusCodes 200 = some 95
    ∧ mapLoad (runSerial mixedOutcomes initialStats).statusCodes 500 = some 5 := by
  refine ⟨(record_success_counts s code d).1, (record_success_counts s code d).2,
    record_success_bucket s code d, record_success_other_bucket s code d other hne,
    (record_failure_counts s d).1, (record_failure_counts s d).2.1,
    (record_failure_counts s d).2.2, by decide, by decide, by decide, by decide⟩

/-- C4 witness: the theorem applied at the empty stats, status 200,
duration 0 and the distinct bucket 404. -/
theorem any_response_counts_successful_witness :
    (404 : Int) ≠ 200
    ∧ ((record initialStats (Outcome.success 200 0)).successfulRequests
          = initialStats.successfulRequests + 1
      ∧ (record initialStats (Outcome.success 200 0)).failedRequests
          = initialStats.failedRequests
      ∧ bucketCount (record initialStats (Outcome.success 200 0)).statusCodes 200
          = bucketCount initialStats.statusCodes 200 + 1
      ∧ bucketCount (record initialStats (Outcome.success 200 0)).statusCodes 404
          = bucketCount initialStats.statusCodes 404
      ∧ (record initialStats (Outcome.failure 0)).failedRequests
          = initialStats.failedRequests + 1
      ∧ (record initialStats (Outcome.failure 0)).successfulRequests
          = initialStats.successfulRequests
      ∧ (record initialStats (Outcome.failure 0)).statusCodes = initialStats.statusCodes
      ∧ (runSerial mixedOutcomes initialStats).successfulRequests = 100
      ∧ (runSerial mixedOutcomes initialStats).failedRequests = 0
      ∧ mapLoad (runSerial mixedOutcomes initialStats).statusCodes 200 = some 95
      ∧ mapLoad (runSerial mixedOutcomes initialStats).statusCodes 500 = some 5) :=
  ⟨by decide, any_response_counts_successful initialStats 200 0 404 (by decide)⟩

/-- C5: with the queue preloaded with job indices 0..N-1, every
scheduler choice hands each index to exactly one worker exactly once —
the dispatched jobs, in order, are exactly 0..N-1, each appearing once
and carried by a single worker below the concurrency bound — and
dispatch (hence every worker loop) ends once the queue is exhausted. -/
theorem jobs_dispatched_exactly_once (sched : Nat → Nat) (c n : Nat) (hc : 0 < c) :
    (assignJobs sched c (List.range n) 0).map Prod.snd = List.range n
    ∧ (∀ j, j < n → ((assignJobs sched c (List.range n) 0).map Prod.snd).count j = 1)
    ∧ (∀ j, ¬ j < n → ((assignJobs sched c (List.range n) 0).map Prod.snd).count j = 0)
    ∧ (∀ p ∈ assignJobs sched c (List.range n) 0, p.1 < c)
    ∧ assignJobs sched c [] 0 = [] := by
  refine ⟨assignJobs_map_snd sched c (List.range n) 0, ?_, ?_, ?_, rfl⟩
  · intro j hj
    rw [assignJobs_map_snd]
    exact List.count_eq_one_of_mem (List.nodup_range n) (List.mem_range.mpr hj)
  · intro j hj
    rw [assignJobs_map_snd]
    exact List.count_eq_zero_of_not_mem (fun hm => hj (List.mem_range.mp hm))
  · exact assignJobs_worker_lt sched c hc (List.range n) 0

/-- C5 witness: the theorem applied with two workers, three jobs and the
identity schedule. -/
theorem jobs_dispatched_exactly_once_witness :
    0 < 2
    ∧ ((assignJobs (fun t => t) 2 (List.range 3) 0).map Prod.snd = List.range 3
      ∧ (∀ j, j < 3 → ((assignJobs (fun t => t) 2 (List.range 3) 0).map Prod.snd).count j = 1)
      ∧ (∀ j, ¬ j < 3 → ((assignJobs (fun t => t) 2 (List.range 3) 0).map Prod.snd).count j = 0)
      ∧ (∀ p ∈ assignJobs (fun t => t) 2 (List.range 3) 0, p.1 < 2)
      ∧ assignJobs (fun t => t) 2 [] 0 = []) :=
  ⟨by decide, jobs_dispatched_exactly_once (fun t => t) 2 3 (by decide)⟩

/-- C6: every recorded duration lies between the final minimum and the
final maximum; the minimum starts at the one-hour sentinel and the first
observation (here 10ms, below the sentinel) replaces it; and the
scenario with durations 10ms, 50ms, 5ms, 100ms yields min = 5ms,
max = 100ms and average 41250000ns = 41.25ms over 4 requests. -/
theorem duration_bounds (outcomes : List Outcome) (d : Int)
    (hmem : d ∈ outcomes.map Outcome.duration) :
    ((runSerial outcomes initialStats).minDuration ≤ d
      ∧ d ≤ (runSerial outcomes initialStats).maxDuration)
    ∧ initialStats.minDuration = hourNs
    ∧ (record initialStats (Outcome.success 200 10000000)).minDuration = 10000000
    ∧ (runSerial durScenario initialStats).minDuration = 5000000
    ∧ (runSerial durScenario initialStats).maxDuration = 100000000
    ∧ (runSerial durScenario initialStats).totalRequests = 4
    ∧ avgDuration (runSerial durScenario initialStats) = 41250000 := by
  obtain ⟨o, ho, hdo⟩ := List.mem_map.mp hmem
  refine ⟨?_, rfl, by decide, by decide, by decide, by decide, by decide⟩
  subst hdo
  exact ⟨runSerial_min_le_mem outcomes initialStats o ho,
         runSerial_max_ge_mem outcomes initialStats o ho⟩

/-- C6 witness: the theorem applied at the duration scenario and the
recorded duration 5ms. -/
theorem duration_bounds_witness :
    (5000000 : Int) ∈ durScenario.map Outcome.duration
    ∧ (((runSerial durScenario initialStats).minDuration ≤ 5000000
        ∧ (5000000 : Int) ≤ (runSerial durScenario initialStats).maxDuration)
      ∧ initialStats.minDuration = hourNs
      ∧ (record initialStats (Outcome.success 200 10000000)).minDuration = 10000000
      ∧ (runSerial durScenario initialStats).minDuration = 5000000
      ∧ (runSerial durScenario initialStats).maxDuration = 100000000
      ∧ (runSerial durScenario initialStats).totalRequests = 4
      ∧ avgDuration (runSerial durScenario initialStats) = 41250000) :=
  ⟨by decide, duration_bounds durScenario 5000000 (by decide)⟩

/-- C7: a per-request failure never aborts the run: whatever outcome
each request has, the worker emits one completion signal per job and
processes the whole job list, exiting exactly when the list is
exhausted; and the all-failures scenario (N = 10) still completes with
total = 10, failed = 10, successful = 0 and an empty histogram. -/
theorem worker_absorbs_failures (oracle : Nat → Outcome) (jobs : List Nat) (s : Stats) :
    (workerRun oracle jobs s).2 = jobs.length
    ∧ (workerRun oracle jobs s).1 = runSerial (jobs.map oracle) s
    ∧ workerRun oracle [] s = (s, 0)
    ∧ (runSerial allFailOutcomes initialStats).totalRequests = 10
    ∧ (runSerial allFailOutcomes initialStats).failedRequests = 10
    ∧ (runSerial allFailOutcomes initialStats).successfulRequests = 0
    ∧ (runSerial allFailOutcomes initialStats).statusCodes = [] := by
  refine ⟨?_, ?_, rfl, by decide, by decide, by decide, by decide⟩
  · induction jobs generalizing s with
    | nil => rfl
    | cons j rest ih => simp [workerRun, ih]
  · induction jobs generalizing s with
    | nil => rfl
    | cons j rest ih => simp [workerRun, ih, runSerial_cons]

/-- C8: when building the base request template fails, the run exits
with code 1 — not 0 — before any worker starts, producing no completed
statistics, for every possible set of request outcomes; and this is the
only fatal condition: when the template is accepted the run always
completes with the aggregated statistics. -/
theorem fatal_template_aborts_run (config : Config) (oracle : Nat → Outcome)
    (order : List Nat) :
    runLoadTest false config oracle order initialStats = RunResult.fatal 1
    ∧ (∀ st : Stats, runLoadTest false config oracle order initialStats
        ≠ RunResult.completed st)
    ∧ (1 : Int) ≠ 0
    ∧ runLoadTest true config oracle order initialStats
        = RunResult.completed (runSerial (order.map oracle) initialStats) := by
  refine ⟨rfl, ?_, by decide, rfl⟩
  intro st h
  exact RunResult.noConfusion h

/-- C9: the clone derived per job is not independent of its siblings
when the template carries a non-empty body — refuting the claim.  Both
clones of the template built for `bodyConfig` (body "x") hold the same
body-reader reference as the template itself; sending through the first
clone transmits "x" and drains the shared reader, after which sending
through the second clone transmits the empty string: the two executions
observe each other through the shared body state. -/
theorem clone_shares_body_reader :
    (Request.clone bodyTemplate.1).bodyRef = bodyTemplate.1.bodyRef
    ∧ (Request.clone bodyTemplate.1).bodyRef = some 0
    ∧ (transmitBody bodyTemplate.2 (Request.clone bodyTemplate.1)).1 = "x"
    ∧ (transmitBody (transmitBody bodyTemplate.2 (Request.clone bodyTemplate.1)).2
        (Request.clone bodyTemplate.1)).1 = ""
    ∧ ("" : String) ≠ "x" := by decide

/-- C10: for every configuration, the shared transport caps idle
connections, idle connections per host and total connections per host
at exactly twice the concurrency level, with a 90-second idle-connection
timeout. -/
theorem transport_caps_connections (config : Config) :
    (createHTTPClient config).transport.maxIdleConns = 2 * config.concurrency
    ∧ (createHTTPClient config).transport.maxIdleConnsPerHost = 2 * config.concurrency
    ∧ (createHTTPClient config).transport.maxConnsPerHost = 2 * config.concurrency
    ∧ (createHTTPClient config).transport.idleConnTimeoutNs = 90 * secondNs := by
  refine ⟨?_, ?_, ?_, rfl⟩ <;> simp [createHTTPClient, mul_comm]

end Loadtest
